import Mathlib

/-!
Shallow embedding of the miniclaw agent runtime (Go) for specification
checking: provider data types, the tool registry, the agent iteration
loop, session store, memory consolidation, heartbeat tick and cron
service, translated from the repository sources.
-/

deriving instance DecidableEq for Except

namespace Miniclaw

/-- Go `unicode.IsSpace` (the whitespace set of `strings.TrimSpace`):
ASCII whitespace plus NEL and NBSP. -/
def goIsSpace (c : Char) : Bool :=
  c = ' ' || c = '\t' || c = '\n' || c = '\x0b' || c = '\x0c' || c = '\r' ||
  c = '\u0085' || c = '\u00A0'

/-- `strings.TrimSpace`, computed over the character list. -/
def goTrimSpace (s : String) : String :=
  String.mk (((s.data.dropWhile goIsSpace).reverse.dropWhile goIsSpace).reverse)

/-- `strings.ToLower`; the inputs compared in this code are ASCII. -/
def goToLower (s : String) : String :=
  String.mk (s.data.map Char.toLower)

/-- `strings.Split` on a single-character separator, over characters. -/
def splitCharsOn (sep : Char) : List Char → List (List Char)
  | [] => [[]]
  | c :: rest =>
    match splitCharsOn sep rest with
    | [] => [[]]
    | g :: gs => if c = sep then [] :: g :: gs else (c :: g) :: gs

/-- `strings.Split(s, "\n")`. -/
def splitLines (s : String) : List String :=
  (splitCharsOn '\n' s.data).map String.mk

/-- `strings.HasPrefix`. -/
def hasPrefixStr (s pre : String) : Bool :=
  List.isPrefixOf pre.data s.data

/-- `strings.HasSuffix`. -/
def hasSuffixStr (s suf : String) : Bool :=
  List.isPrefixOf suf.data.reverse s.data.reverse

/-- A typed content item (text or tool_use or tool_result), from
`internal/provider` (`ContentBlock`). `input` holds the raw JSON text. -/
structure ContentBlock where
  type : String
  text : String := ""
  id : String := ""
  name : String := ""
  input : String := ""
  toolUseID : String := ""
  content : String := ""
  isError : Bool := false
deriving Repr, DecidableEq

/-- Message content: Go `interface{}` holding a string or `[]ContentBlock`. -/
inductive MsgContent where
  | str (s : String)
  | blocks (bs : List ContentBlock)
deriving Repr, DecidableEq

/-- A single turn in the conversation, from `internal/provider` (`Message`). -/
structure Message where
  role : String
  content : MsgContent
deriving Repr, DecidableEq

/-- The fields of the provider `ChatResponse` that the agent loop reads. -/
structure ChatResponse where
  content : List ContentBlock
  stopReason : String
deriving Repr, DecidableEq

/-- The chat backend, abstracted as in spec section 1: a call indexed by
the iteration number, receiving the conversation and returning a
response or a typed error. -/
abbrev ChatFn := Nat → List Message → Except String ChatResponse

/-- A registered tool: a name and an execute function taking the raw
JSON input and returning text or a typed error (`internal/tools`,
interface `Tool`). -/
structure Tool where
  name : String
  exec : String → Except String String

/-- The tool registry (`Registry.tools`), modelled as an association by
tool name. -/
abbrev Registry := List Tool

/-- `Registry.Execute`: dispatch to the matching tool or fail with an
"unknown tool" error (src/unnamed/part_002, lines 43-49). -/
def Registry.Execute (r : Registry) (name input : String) : Except String String :=
  match r.find? (fun t => t.name == name) with
  | none => Except.error ("unknown tool: " ++ name)
  | some t => t.exec input

/-- One step of the response-partition fold in `Loop.runLoop`
(loop.go lines 155-162): a text block overwrites `textContent`, a
tool_use block is collected, anything else is ignored. -/
def partitionStep (acc : String × List ContentBlock) (b : ContentBlock) :
    String × List ContentBlock :=
  if b.type == "text" then (b.text, acc.2)
  else if b.type == "tool_use" then (acc.1, acc.2 ++ [b])
  else acc

/-- Partition a response's content into the (last) text and the list of
tool calls, exactly as the loop's `for` over `resp.Content` does. -/
def partitionContent (blocks : List ContentBlock) : String × List ContentBlock :=
  blocks.foldl partitionStep ("", [])

/-- Execution of one requested tool call (loop.go lines 182-195): on
failure the result text is `"Error: " ++` the error message and the
tool_result block is flagged `isError`. -/
def execToolCall (reg : Registry) (tc : ContentBlock) : ContentBlock :=
  match reg.Execute tc.name tc.input with
  | Except.ok result =>
      { type := "tool_result", toolUseID := tc.id, content := result, isError := false }
  | Except.error e =>
      { type := "tool_result", toolUseID := tc.id, content := "Error: " ++ e, isError := true }

/-- Result of `runLoop`: final text, names of tools used, and the
number of backend calls made. -/
structure LoopOut where
  text : String
  toolsUsed : List String
  calls : Nat
deriving Repr, DecidableEq

/-- The fixed fallback returned when the iteration cap is exhausted
(loop.go line 204). -/
def fallbackText : String := "I've completed processing but have no response to give."

/-- The body of `Loop.runLoop` (loop.go lines 146-204): fuel counts the
remaining iterations of `for range maxIter`; `callIdx` counts backend
calls already made. -/
def runLoopAux (reg : Registry) (chat : ChatFn) (callIdx : Nat)
    (messages : List Message) (toolsUsed : List String) : Nat → Except String LoopOut
  | 0 => Except.ok ⟨fallbackText, toolsUsed, callIdx⟩
  | fuel + 1 =>
    match chat callIdx messages with
    | Except.error e => Except.error ("LLM error: " ++ e)
    | Except.ok resp =>
      let part := partitionContent resp.content
      if resp.stopReason == "end_turn" || part.2.isEmpty then
        Except.ok ⟨part.1, toolsUsed, callIdx + 1⟩
      else
        runLoopAux reg chat (callIdx + 1)
          ((messages ++ [⟨"assistant", MsgContent.blocks resp.content⟩]) ++
            [⟨"user", MsgContent.blocks (part.2.map (execToolCall reg))⟩])
          (toolsUsed ++ part.2.map (fun b => b.name)) fuel

/-- The effective iteration count of `Loop.runLoop` (loop.go lines
139-142 and the `for range maxIter` header): `MaxIterations` defaults
to 20 only when it is exactly zero; Go's `for range n` over a negative
int performs zero iterations, hence the final `toNat`. -/
def effectiveMaxIter (maxIterations : Int) : Nat :=
  (if maxIterations == 0 then 20 else maxIterations).toNat

/-- `Loop.runLoop` (loop.go lines 138-205). -/
def runLoop (maxIterations : Int) (reg : Registry) (chat : ChatFn)
    (messages : List Message) : Except String LoopOut :=
  runLoopAux reg chat 0 messages [] (effectiveMaxIter maxIterations)

/-- Opaque model of `time.Time` values stamped onto session messages. -/
abbrev Timestamp := Nat

/-- A single message stored in session history (`SessionMessage`,
session.go lines 16-21). A nil `ToolsUsed` slice is the empty list. -/
structure SessionMessage where
  role : String
  content : String
  toolsUsed : List String := []
  timestamp : Timestamp := 0
deriving Repr, DecidableEq

/-- Conversation history for a single chat (`Session`, session.go lines
24-28). `lastConsolidated` is a Go `int`, hence `Int`. -/
structure Session where
  key : String
  messages : List SessionMessage := []
  lastConsolidated : Int := 0
deriving Repr, DecidableEq

/-- `Session.Add` (session.go lines 31-41): append one message stamped
with the current time; the variadic tools argument becomes the
(possibly empty) `toolsUsed` list. -/
def Session.add (s : Session) (now : Timestamp) (role content : String)
    (tools : List String := []) : Session :=
  { s with messages := s.messages ++
      [{ role := role, content := content, toolsUsed := tools, timestamp := now }] }

/-- `Session.Clear` (session.go lines 60-63). -/
def Session.clear (s : Session) : Session :=
  { s with messages := [], lastConsolidated := 0 }

/-- `Session.RecentMessages` (session.go lines 44-57): up to the `n`
most recent messages as provider messages. `n` is the memory window,
always positive at the call site. -/
def Session.recentMessages (s : Session) (n : Nat) : List Message :=
  let msgs := if n < s.messages.length then s.messages.drop (s.messages.length - n)
              else s.messages
  msgs.map (fun m => ⟨m.role, MsgContent.str m.content⟩)

/-- `BuildMessages` (src/unnamed/part_005): history plus the new user turn. -/
def buildMessages (history : List Message) (current : String) : List Message :=
  history ++ [⟨"user", MsgContent.str current⟩]

/-- `Loop.memWindow` (loop.go lines 131-136): the configured
`MemoryWindow` when positive, else 50. -/
def memWindow (memoryWindow : Int) : Int :=
  if memoryWindow > 0 then memoryWindow else 50

/-- The static reply of the `/new` command (loop.go line 100). -/
def newSessionReply : String := "New session started. Memory consolidation in progress."

/-- The static reply of the `/help` command (loop.go line 102). -/
def helpReply : String :=
  "🐾 miniclaw commands:\n/new — Start a new conversation\n/help — Show available commands"

/-- `Loop.ProcessMessage` (loop.go lines 88-129) as a sequential
function on the session value. The detached consolidation goroutines
(lines 97-99 and 106-113) run in the background and are not part of
the synchronous call being modelled; system-prompt construction only
feeds the abstracted backend and is elided. Returns the reply and the
updated session on success. -/
def processMessage (maxIterations memoryWindow : Int) (reg : Registry) (chat : ChatFn)
    (session : Session) (userMsg : String) (now : Timestamp) :
    Except String (String × Session) :=
  let cmd := goTrimSpace (goToLower userMsg)
  if cmd == "/new" then
    Except.ok (newSessionReply, session.clear)
  else if cmd == "/help" then
    Except.ok (helpReply, session)
  else
    let win := memWindow memoryWindow
    let history := session.recentMessages win.toNat
    let messages := buildMessages history userMsg
    match runLoop maxIterations reg chat messages with
    | Except.error e => Except.error e
    | Except.ok out =>
      let s1 := session.add now "user" userMsg
      let s2 := s1.add now "assistant" out.text out.toolsUsed
      Except.ok (out.text, s2)

/-- The session data-model invariant (spec section 3):
`0 ≤ lastConsolidated ≤ len(messages)`. -/
def Session.invariant (s : Session) : Prop :=
  0 ≤ s.lastConsolidated ∧ s.lastConsolidated ≤ (s.messages.length : Int)

/-- The two-field structured result the consolidator expects
(memory.go lines 145-148). -/
structure ConsolResult where
  historyEntry : String
  memoryUpdate : String
deriving Repr, DecidableEq

/-- Model of `encoding/json.Unmarshal` into the two-field result
struct: `none` when the text is not valid JSON for it. The JSON
library is an external collaborator (spec section 1). -/
abbrev ParseFn := String → Option ConsolResult

/-- The consolidator-owned workspace state: the long-term memory
document `MEMORY.md` (overwritten whole) and the append-only history
log `HISTORY.md` (one appended entry per consolidation). -/
structure ConsolState where
  memory : String
  history : List String
deriving Repr, DecidableEq

/-- Output of one `Consolidate` call: the workspace state, the session
(with a possibly advanced watermark), and whether the chat backend was
called at all. -/
structure ConsolOut where
  state : ConsolState
  session : Session
  backendCalled : Bool
deriving Repr, DecidableEq

/-- `strings.TrimSuffix`: drop the suffix when present, else unchanged. -/
def trimSuffixStr (s suf : String) : String :=
  if hasSuffixStr s suf then s.dropRight suf.length else s

/-- Everything after the first newline, i.e. `strings.SplitN(text,
"\n", 2)[1]` when a newline exists, else the text unchanged. -/
def afterFirstLine (text : String) : String :=
  match splitLines text with
  | [] => text
  | [_] => text
  | _ :: rest => String.intercalate "\n" rest

/-- The markdown-fence stripping of `Consolidate` (memory.go lines
136-143): when the reply starts with a fence, drop the first line,
trim a trailing fence, and trim whitespace. -/
def stripFences (text : String) : String :=
  if hasPrefixStr text "```" then
    goTrimSpace (trimSuffixStr (afterFirstLine text) "```")
  else text

/-- The first text block of a response (memory.go lines 122-128: the
loop breaks at the first text block). -/
def extractFirstText (blocks : List ContentBlock) : String :=
  match blocks.find? (fun b => b.type == "text") with
  | some b => b.text
  | none => ""

/-- `MemoryStore.Consolidate` (memory.go lines 64-165). The single
possible backend call is abstracted by `chatResp`, the response the
backend would return for this call's prompt; `parse` models
`json.Unmarshal` of the stripped reply. The Go function returns no
error: every failure path logs and returns with the state unchanged.
`memWindow / 2` is Go `int` division, i.e. truncation (`Int.tdiv`). -/
def consolidate (chatResp : Except String ChatResponse) (parse : ParseFn)
    (st : ConsolState) (session : Session) (memWindow : Int) : ConsolOut :=
  let keepCount := memWindow.tdiv 2
  if (session.messages.length : Int) ≤ keepCount then ⟨st, session, false⟩
  else
    let endIdx : Int := (session.messages.length : Int) - keepCount
    if endIdx ≤ session.lastConsolidated then ⟨st, session, false⟩
    else
      let oldMsgs := (session.messages.take endIdx.toNat).drop session.lastConsolidated.toNat
      if oldMsgs.isEmpty then ⟨st, session, false⟩
      else
        let currentMemory := st.memory
        match chatResp with
        | Except.error _ => ⟨st, session, true⟩
        | Except.ok resp =>
          let text := goTrimSpace (extractFirstText resp.content)
          if text == "" then ⟨st, session, true⟩
          else
            match parse (stripFences text) with
            | none => ⟨st, session, true⟩
            | some result =>
              let st1 := if result.historyEntry != "" then
                  { st with history := st.history ++ [result.historyEntry] } else st
              let st2 := if result.memoryUpdate != "" && result.memoryUpdate != currentMemory then
                  { st1 with memory := result.memoryUpdate } else st1
              ⟨st2, { session with lastConsolidated := endIdx }, true⟩

/-- The heartbeat sentinel token (heartbeat.go line 16). -/
def heartbeatOK : String := "HEARTBEAT_OK"

/-- `Service.readHeartbeatFile` content filtering (heartbeat.go lines
100-109): drop blank and `#`-comment lines, judging each line by its
trimmed form but keeping the original line. -/
def filterHeartbeatContent (raw : String) : String :=
  let content := goTrimSpace raw
  let lines := (splitLines content).filter
    (fun line => goTrimSpace line != "" && !(hasPrefixStr (goTrimSpace line) "#"))
  goTrimSpace (String.intercalate "\n" lines)

/-- `Service.tick` (heartbeat.go lines 57-92) as a function from the
raw instructions file content, the configured chat id, the agent
call's outcome and the presence of a send function, to the send-channel
action performed (`none` = suppressed). The sentinel comparison in the
source is `strings.TrimSpace(result) == heartbeatOK`, with
`result == ""` as the other suppression case. -/
def tick (raw chatID : String) (agentResult : Except String String)
    (hasSend : Bool) : Option (String × String) :=
  let content := filterHeartbeatContent raw
  if content == "" then none
  else
    match agentResult with
    | Except.error _ => none
    | Except.ok result =>
      if goTrimSpace result == heartbeatOK || result == "" then none
      else if hasSend && chatID != "" then some (chatID, result)
      else none

/-- A scheduled cron job (`Job`, cron/service.go lines 18-26).
`created` abstracts the `time.Time` creation stamp. -/
structure CronJob where
  id : String
  name : String
  schedule : String
  message : String
  chatID : String
  enabled : Bool
  created : Timestamp
deriving Repr, DecidableEq

/-- The cron service state: the in-memory job map, the live schedule
handles (`entryIDs`), and the persisted file content (the job
collection written by `save()`). -/
structure CronState where
  jobs : List (String × CronJob)
  entryIDs : List (String × Nat)
  persisted : List (String × CronJob)
deriving Repr, DecidableEq

/-- Model of `robfig.Cron.AddFunc`'s parse-and-arm step (the external
scheduling library): a valid expression yields an entry id, an invalid
one a typed error. -/
abbrev ParseSchedFn := String → Except String Nat

/-- `Service.Add` (cron/service.go lines 76-98): build the job, arm its
schedule (validating the expression), and only on success insert it and
persist the collection. `newID` models `time.Now().UnixNano()`.
Returns the call result together with the state after the call. -/
def cronAdd (parseSched : ParseSchedFn) (newID : String) (now : Timestamp)
    (st : CronState) (name schedule message chatID : String) :
    Except String CronJob × CronState :=
  let job : CronJob := ⟨newID, name, schedule, message, chatID, true, now⟩
  match parseSched schedule with
  | Except.error e =>
      (Except.error ("invalid schedule \x22" ++ schedule ++ "\x22: " ++ e), st)
  | Except.ok entryID =>
      let jobs := st.jobs ++ [(newID, job)]
      (Except.ok job,
        { jobs := jobs, entryIDs := st.entryIDs ++ [(newID, entryID)], persisted := jobs })

/-- `Service.Remove` (cron/service.go lines 101-117): unknown id fails
with a "not found" error and leaves everything unchanged; otherwise the
live handle is disarmed, the definition deleted, and the collection
persisted. -/
def cronRemove (st : CronState) (id : String) : Except String Unit × CronState :=
  match st.jobs.find? (fun p => p.1 == id) with
  | none => (Except.error ("job \x22" ++ id ++ "\x22 not found"), st)
  | some _ =>
      let jobs := st.jobs.filter (fun p => p.1 != id)
      (Except.ok (),
        { jobs := jobs, entryIDs := st.entryIDs.filter (fun p => p.1 != id),
          persisted := jobs })

/-- `SessionManager.path` key sanitization (session.go line 76):
`strings.NewReplacer(":", "_", "/", "_", "\\", "_")`. -/
def sanitizeKey (key : String) : String :=
  String.mk (key.data.map (fun c => if c = ':' ∨ c = '/' ∨ c = '\\' then '_' else c))

/-- `SessionManager.path` (session.go lines 75-78): the per-key file
path under the sessions directory. -/
def sessionPath (dir key : String) : String :=
  dir ++ "/" ++ sanitizeKey key ++ ".json"

/-- The sessions directory contents: path to the session value decoded
from that file. JSON (de)serialization of the external `encoding/json`
library is taken as faithful; `Save` marshals every field including
`key`, so `Get`'s unmarshal over a fresh struct reproduces the stored
value. -/
abbrev SessionStore := List (String × Session)

/-- Overwrite the file at `path` with session `s`. -/
def storeSet (fs : SessionStore) (path : String) (s : Session) : SessionStore :=
  fs.filter (fun p => p.1 != path) ++ [(path, s)]

/-- `SessionManager.Save` (session.go lines 92-101). -/
def smSave (dir : String) (fs : SessionStore) (s : Session) : SessionStore :=
  storeSet fs (sessionPath dir s.key) s

/-- `SessionManager.Get` (session.go lines 81-89): load the file at the
key's path, returning an empty session when it does not exist. -/
def smGet (dir : String) (fs : SessionStore) (key : String) : Session :=
  match fs.find? (fun p => p.1 == sessionPath dir key) with
  | some p => p.2
  | none => { key := key, messages := [], lastConsolidated := 0 }

/-- The text the partition fold has after processing `bs` when it held
`t` beforehand: the text of the last text block, else `t`. -/
def lastTextFrom (t : String) : List ContentBlock → String
  | [] => t
  | b :: bs => lastTextFrom (if b.type == "text" then b.text else t) bs

theorem foldl_partitionStep_snd (bs : List ContentBlock) :
    ∀ (t : String) (ts : List ContentBlock),
    (bs.foldl partitionStep (t, ts)).2 = ts ++ bs.filter (fun b => b.type == "tool_use") := by
  induction bs with
  | nil => intro t ts; simp
  | cons b bs ih =>
    intro t ts
    simp only [List.foldl_cons, List.filter_cons, partitionStep]
    by_cases h1 : b.type = "text"
    · have h2 : (b.type == "tool_use") = false := by simp [h1]
      simp [h1, h2, ih]
    · by_cases h3 : b.type = "tool_use"
      · have h2 : (b.type == "text") = false := by simp [h1]
        simp [h2, h3, ih]
      · have h2 : (b.type == "text") = false := by simp [h1]
        have h4 : (b.type == "tool_use") = false := by simp [h3]
        simp [h2, h4, ih]

theorem foldl_partitionStep_fst (bs : List ContentBlock) :
    ∀ (t : String) (ts : List ContentBlock),
    (bs.foldl partitionStep (t, ts)).1 = lastTextFrom t bs := by
  induction bs with
  | nil => intro t ts; simp [lastTextFrom]
  | cons b bs ih =>
    intro t ts
    simp only [List.foldl_cons, partitionStep, lastTextFrom]
    by_cases h1 : b.type = "text"
    · simp [h1, ih]
    · have h2 : (b.type == "text") = false := by simp [h1]
      by_cases h3 : b.type = "tool_use"
      · simp [h2, h3, ih]
      · have h4 : (b.type == "tool_use") = false := by simp [h3]
        simp [h2, h4, ih]

theorem partitionContent_snd (bs : List ContentBlock) :
    (partitionContent bs).2 = bs.filter (fun b => b.type == "tool_use") := by
  simpa using foldl_partitionStep_snd bs "" []

theorem partitionContent_fst (bs : List ContentBlock) :
    (partitionContent bs).1 = lastTextFrom "" bs :=
  foldl_partitionStep_fst bs "" []

theorem lastTextFrom_of_no_text (bs : List ContentBlock) :
    ∀ t, bs.filter (fun b => b.type == "text") = [] → lastTextFrom t bs = t := by
  induction bs with
  | nil => intro t _; rfl
  | cons b bs ih =>
    intro t h
    simp only [List.filter_cons] at h
    by_cases h1 : b.type = "text"
    · simp [h1] at h
    · have h2 : (b.type == "text") = false := by simp [h1]
      simp only [h2] at h
      simpa [lastTextFrom, h2] using ih t h

theorem lastTextFrom_last (bs : List ContentBlock) :
    ∀ (t : String) (pre : List ContentBlock) (b : ContentBlock),
    bs.filter (fun x => x.type == "text") = pre ++ [b] → lastTextFrom t bs = b.text := by
  induction bs with
  | nil => intro t pre b h; simp at h
  | cons x bs ih =>
    intro t pre b h
    simp only [List.filter_cons] at h
    by_cases h1 : x.type = "text"
    · simp only [h1] at h
      simp only [show (("text" : String) == "text") = true from rfl, if_pos] at h
      cases pre with
      | nil =>
        simp only [List.nil_append] at h
        have hx : x = b := by
          have := (List.cons_eq_cons.mp h).1
          exact this
        have hrest : bs.filter (fun x => x.type == "text") = [] :=
          (List.cons_eq_cons.mp h).2
        have h2 : (x.type == "text") = true := by simp [h1]
        rw [lastTextFrom, h2, if_pos rfl, lastTextFrom_of_no_text bs x.text hrest, hx]
      | cons p pre =>
        simp only [List.cons_append, List.cons_eq_cons] at h
        have h2 : (x.type == "text") = true := by simp [h1]
        rw [lastTextFrom, h2, if_pos rfl]
        exact ih x.text pre b h.2
    · have h2 : (x.type == "text") = false := by simp [h1]
      simp only [h2, if_neg] at h
      rw [lastTextFrom, h2]
      simp only [Bool.false_eq_true, if_neg, not_false_iff]
      exact ih t pre b h

/-- A chat backend that on every call answers with at least one
tool-invocation block and a stop reason other than "end_turn". -/
def alwaysToolUse (chat : ChatFn) : Prop :=
  ∀ i msgs, ∃ resp, chat i msgs = Except.ok resp ∧ resp.stopReason ≠ "end_turn" ∧
    ∃ b ∈ resp.content, b.type = "tool_use"

theorem partitionContent_snd_ne_nil (bs : List ContentBlock)
    (h : ∃ b ∈ bs, b.type = "tool_use") : (partitionContent bs).2 ≠ [] := by
  rw [partitionContent_snd]
  obtain ⟨b, hb, ht⟩ := h
  intro hnil
  have := List.filter_eq_nil_iff.mp hnil b hb
  simp [ht] at this

theorem runLoopAux_alwaysToolUse (reg : Registry) (chat : ChatFn)
    (h : alwaysToolUse chat) :
    ∀ (fuel callIdx : Nat) (messages : List Message) (toolsUsed : List String),
    ∃ tu, runLoopAux reg chat callIdx messages toolsUsed fuel =
      Except.ok ⟨fallbackText, tu, callIdx + fuel⟩ := by
  intro fuel
  induction fuel with
  | zero => intro callIdx messages toolsUsed; exact ⟨toolsUsed, by simp [runLoopAux]⟩
  | succ fuel ih =>
    intro callIdx messages toolsUsed
    obtain ⟨resp, hok, hstop, hblocks⟩ := h callIdx messages
    have hne : (partitionContent resp.content).2 ≠ [] :=
      partitionContent_snd_ne_nil resp.content hblocks
    have hcond : (resp.stopReason == "end_turn" || (partitionContent resp.content).2.isEmpty)
        = false := by
      simp [hstop, List.isEmpty_iff, hne]
    obtain ⟨tu, htu⟩ := ih (callIdx + 1)
      ((messages ++ [⟨"assistant", MsgContent.blocks resp.content⟩]) ++
        [⟨"user", MsgContent.blocks ((partitionContent resp.content).2.map (execToolCall reg))⟩])
      (toolsUsed ++ (partitionContent resp.content).2.map (fun b => b.name))
    refine ⟨tu, ?_⟩
    rw [runLoopAux, hok]
    simp only [hcond, Bool.false_eq_true, if_neg, not_false_iff]
    rw [htu]
    congr 1
    simp only [LoopOut.mk.injEq, true_and]
    omega

/-- C2 as stated fails: a configuration may carry a negative
`MaxIterations` (no validation clamps it), and Go's `for range` over a
negative int performs zero iterations, not the claimed 20. With an
always-tool-invoking backend the loop makes 0 backend calls and
returns the fallback immediately. -/
theorem c2_counterexample :
    runLoop (-1) []
      (fun _ _ => Except.ok ⟨[{ type := "tool_use", id := "t1", name := "frob" }], "tool_use"⟩)
      [] = Except.ok ⟨fallbackText, [], 0⟩ ∧ (0 : Nat) ≠ 20 :=
  ⟨rfl, by decide⟩

/-- C2 (amended): for a backend that on every call returns at least one
tool-invocation block and a stop reason other than "end_turn", the loop
performs exactly the effective iteration count — `MaxIterations` when
positive, 20 when it is zero, and zero iterations when it is negative —
then returns the fixed fallback text with no error. -/
theorem c2_loop_cap (maxIterations : Int) (reg : Registry) (chat : ChatFn)
    (messages : List Message) (h : alwaysToolUse chat) :
    (∃ tu, runLoop maxIterations reg chat messages =
        Except.ok ⟨fallbackText, tu, effectiveMaxIter maxIterations⟩) ∧
    (0 < maxIterations → (effectiveMaxIter maxIterations : Int) = maxIterations) ∧
    (maxIterations = 0 → effectiveMaxIter maxIterations = 20) ∧
    (maxIterations < 0 → effectiveMaxIter maxIterations = 0) := by
  refine ⟨?_, ?_, ?_, ?_⟩
  · obtain ⟨tu, htu⟩ := runLoopAux_alwaysToolUse reg chat h
      (effectiveMaxIter maxIterations) 0 messages []
    exact ⟨tu, by simpa [runLoop] using htu⟩
  · intro hpos
    have : (maxIterations == 0) = false := by
      simp; omega
    simp [effectiveMaxIter, this, Int.toNat_of_nonneg (le_of_lt hpos)]
  · intro h0; simp [effectiveMaxIter, h0]
  · intro hneg
    have : (maxIterations == 0) = false := by
      simp; omega
    simp [effectiveMaxIter, this, Int.toNat_of_nonpos (le_of_lt hneg)]

/-- The concrete always-tool-invoking backend used to witness C2. -/
def c2chat : ChatFn :=
  fun _ _ => Except.ok ⟨[{ type := "tool_use", id := "t1", name := "frob" }], "tool_use"⟩

theorem c2chat_alwaysToolUse : alwaysToolUse c2chat := by
  intro i msgs
  refine ⟨⟨[{ type := "tool_use", id := "t1", name := "frob" }], "tool_use"⟩, rfl, by decide, ?_⟩
  exact ⟨{ type := "tool_use", id := "t1", name := "frob" }, by simp, rfl⟩

theorem c2_witness :
    (∃ tu, runLoop 3 [] c2chat [] = Except.ok ⟨fallbackText, tu, effectiveMaxIter 3⟩) ∧
    (0 < (3 : Int) → (effectiveMaxIter 3 : Int) = 3) ∧
    ((3 : Int) = 0 → effectiveMaxIter 3 = 20) ∧
    ((3 : Int) < 0 → effectiveMaxIter 3 = 0) :=
  c2_loop_cap 3 [] c2chat [] c2chat_alwaysToolUse

/-- C3: a failing tool invocation does not abort the loop. When the
backend answers with tool calls (and no "end_turn"), the loop proceeds
to the next backend call with the conversation extended by the
assistant turn and one tool_result per invocation; a failing execution
— in particular an unregistered tool name, for which `Registry.Execute`
fails with "unknown tool" — yields a tool_result whose text is the
error message and whose `isError` flag is set. -/
theorem c3_tool_error_continues (reg : Registry) (chat : ChatFn) (callIdx : Nat)
    (messages : List Message) (toolsUsed : List String) (fuel : Nat) (resp : ChatResponse)
    (hok : chat callIdx messages = Except.ok resp)
    (hstop : resp.stopReason ≠ "end_turn")
    (hcalls : (partitionContent resp.content).2 ≠ []) :
    (runLoopAux reg chat callIdx messages toolsUsed (fuel + 1) =
      runLoopAux reg chat (callIdx + 1)
        (messages ++ [⟨"assistant", MsgContent.blocks resp.content⟩,
          ⟨"user", MsgContent.blocks ((partitionContent resp.content).2.map (execToolCall reg))⟩])
        (toolsUsed ++ (partitionContent resp.content).2.map (fun b => b.name)) fuel) ∧
    (∀ tc e, Registry.Execute reg tc.name tc.input = Except.error e →
      execToolCall reg tc = { type := "tool_result", toolUseID := tc.id,
                              content := "Error: " ++ e, isError := true }) ∧
    (∀ tc : ContentBlock, reg.find? (fun t => t.name == tc.name) = none →
      Registry.Execute reg tc.name tc.input = Except.error ("unknown tool: " ++ tc.name)) := by
  refine ⟨?_, ?_, ?_⟩
  · have hcond : (resp.stopReason == "end_turn" || (partitionContent resp.content).2.isEmpty)
        = false := by
      simp [hstop, List.isEmpty_iff, hcalls]
    rw [runLoopAux, hok]
    simp only [hcond, Bool.false_eq_true, if_neg, not_false_iff, List.append_assoc,
      List.cons_append, List.nil_append]
  · intro tc e he
    simp [execToolCall, he]
  · intro tc hfind
    simp [Registry.Execute, hfind]

/-- The backend used to witness C3: it requests the unregistered tool
"frobnicate" on the first call and ends the turn on the second. -/
def c3chat : ChatFn :=
  fun i _ =>
    if i = 0 then
      Except.ok ⟨[{ type := "tool_use", id := "t1", name := "frobnicate" }], "tool_use"⟩
    else Except.ok ⟨[{ type := "text", text := "done" }], "end_turn"⟩

theorem c3_witness :
    (runLoopAux [] c3chat 0 [] [] (1 + 1) =
      runLoopAux [] c3chat (0 + 1)
        ([] ++ [⟨"assistant", MsgContent.blocks
            [{ type := "tool_use", id := "t1", name := "frobnicate" }]⟩,
          ⟨"user", MsgContent.blocks
            (((partitionContent [{ type := "tool_use", id := "t1", name := "frobnicate" }]).2).map
              (execToolCall []))⟩])
        ([] ++ ((partitionContent
            [{ type := "tool_use", id := "t1", name := "frobnicate" }]).2).map
              (fun b => b.name)) 1) ∧
    (∀ tc e, Registry.Execute [] tc.name tc.input = Except.error e →
      execToolCall [] tc = { type := "tool_result", toolUseID := tc.id,
                             content := "Error: " ++ e, isError := true }) ∧
    (∀ tc : ContentBlock, List.find? (fun (t : Tool) => t.name == tc.name) [] = none →
      Registry.Execute [] tc.name tc.input = Except.error ("unknown tool: " ++ tc.name)) :=
  c3_tool_error_continues [] c3chat 0 [] [] 1
    ⟨[{ type := "tool_use", id := "t1", name := "frobnicate" }], "tool_use"⟩
    rfl (by decide) (by decide)

/-- C10: when the backend's terminal response carries several text
blocks, the loop's answer is the text of the last text block only —
each text block overwrites the previous one in the partition fold, so
earlier texts are discarded, not concatenated. -/
theorem c10_last_text_block_wins (maxIterations : Int) (reg : Registry) (chat : ChatFn)
    (messages : List Message) (resp : ChatResponse) (pre : List ContentBlock)
    (b : ContentBlock)
    (hok : chat 0 messages = Except.ok resp)
    (hstop : resp.stopReason = "end_turn")
    (hfuel : 0 < effectiveMaxIter maxIterations)
    (hlast : resp.content.filter (fun x => x.type == "text") = pre ++ [b]) :
    runLoop maxIterations reg chat messages = Except.ok ⟨b.text, [], 1⟩ := by
  obtain ⟨n, hn⟩ := Nat.exists_eq_succ_of_ne_zero (Nat.pos_iff_ne_zero.mp hfuel)
  rw [runLoop, hn]
  simp only [runLoopAux, hok]
  have hcond : (resp.stopReason == "end_turn" || (partitionContent resp.content).2.isEmpty)
      = true := by simp [hstop]
  simp only [hcond, if_pos, Nat.zero_add]
  rw [partitionContent_fst, lastTextFrom_last resp.content "" pre b hlast]

/-- The backend used to witness C10: one response with two text blocks. -/
def c10chat : ChatFn :=
  fun _ _ => Except.ok
    ⟨[{ type := "text", text := "first draft" }, { type := "text", text := "final answer" }],
      "end_turn"⟩

theorem c10_witness :
    runLoop 20 [] c10chat [] = Except.ok ⟨"final answer", [], 1⟩ :=
  c10_last_text_block_wins 20 [] c10chat []
    ⟨[{ type := "text", text := "first draft" }, { type := "text", text := "final answer" }],
      "end_turn"⟩
    [{ type := "text", text := "first draft" }] { type := "text", text := "final answer" }
    rfl rfl (by decide) (by decide)

/-- C1: after any successful `ProcessMessage` call on a session
satisfying the data-model invariant, `0 ≤ lastConsolidated ≤
len(messages)` still holds; `/new` and `/help` (matched on the
trimmed, lowercased input) append no messages, and any other input
grows the message list by exactly two — the user message first, then
the assistant's final text — leaving the watermark unchanged. -/
theorem c1_process_message_invariant (maxIterations memoryWindow : Int) (reg : Registry)
    (chat : ChatFn) (session : Session) (userMsg : String) (now : Timestamp)
    (reply : String) (s' : Session)
    (hinv : session.invariant)
    (hok : processMessage maxIterations memoryWindow reg chat session userMsg now =
      Except.ok (reply, s')) :
    s'.invariant ∧
    (goTrimSpace (goToLower userMsg) = "/new" → s'.messages = [] ∧ s'.lastConsolidated = 0) ∧
    (goTrimSpace (goToLower userMsg) = "/help" → s' = session) ∧
    (goTrimSpace (goToLower userMsg) ≠ "/new" → goTrimSpace (goToLower userMsg) ≠ "/help" →
      s'.lastConsolidated = session.lastConsolidated ∧
      s'.messages.length = session.messages.length + 2 ∧
      ∃ tools, s'.messages = session.messages ++
        [⟨"user", userMsg, [], now⟩, ⟨"assistant", reply, tools, now⟩]) := by
  by_cases hnew : goTrimSpace (goToLower userMsg) = "/new"
  · have hb : (goTrimSpace (goToLower userMsg) == "/new") = true := by simp [hnew]
    simp only [processMessage, hb, if_pos, Except.ok.injEq, Prod.mk.injEq] at hok
    obtain ⟨hr, hs⟩ := hok
    subst hs
    refine ⟨⟨le_refl 0, by simp [Session.clear]⟩, fun _ => ⟨rfl, rfl⟩, ?_, ?_⟩
    · intro hhelp; rw [hnew] at hhelp; simp at hhelp
    · intro hne _; exact absurd hnew hne
  · have hb : (goTrimSpace (goToLower userMsg) == "/new") = false := by simp [hnew]
    by_cases hhelp : goTrimSpace (goToLower userMsg) = "/help"
    · have hb2 : (goTrimSpace (goToLower userMsg) == "/help") = true := by simp [hhelp]
      simp only [processMessage, hb, Bool.false_eq_true, if_neg, not_false_iff, hb2,
        if_pos, Except.ok.injEq, Prod.mk.injEq] at hok
      obtain ⟨hr, hs⟩ := hok
      subst hs
      exact ⟨hinv, fun h => absurd h hnew, fun _ => rfl, fun _ hne => absurd hhelp hne⟩
    · have hb2 : (goTrimSpace (goToLower userMsg) == "/help") = false := by simp [hhelp]
      simp only [processMessage, hb, hb2, Bool.false_eq_true, if_neg, not_false_iff] at hok
      cases hrl : runLoop maxIterations reg chat
          (buildMessages (Session.recentMessages session (memWindow memoryWindow).toNat)
            userMsg) with
      | error e => rw [hrl] at hok; simp at hok
      | ok out =>
        rw [hrl] at hok
        simp only [Except.ok.injEq, Prod.mk.injEq] at hok
        obtain ⟨hr, hs⟩ := hok
        subst hs
        obtain ⟨h0, hle⟩ := hinv
        refine ⟨⟨h0, ?_⟩, fun h => absurd h hnew, fun h => absurd h hhelp, ?_⟩
        · simp only [Session.add, List.length_append, List.length_cons, List.length_nil]
          push_cast
          omega
        · intro _ _
          refine ⟨rfl, ?_, out.toolsUsed, ?_⟩
          · simp [Session.add]
          · simp [Session.add, hr]

/-- The backend used to witness C1: it ends the turn immediately. -/
def c1chat : ChatFn :=
  fun _ _ => Except.ok ⟨[{ type := "text", text := "hi" }], "end_turn"⟩

theorem c1_witness :
    Session.invariant ⟨"k", [], 0⟩ ∧
    processMessage 20 50 [] c1chat ⟨"k", [], 0⟩ "hello" 5 =
      Except.ok ("hi", ⟨"k", [⟨"user", "hello", [], 5⟩, ⟨"assistant", "hi", [], 5⟩], 0⟩) ∧
    (Session.invariant ⟨"k", [⟨"user", "hello", [], 5⟩, ⟨"assistant", "hi", [], 5⟩], 0⟩ ∧
     (goTrimSpace (goToLower "hello") = "/new" →
       (⟨"k", [⟨"user", "hello", [], 5⟩, ⟨"assistant", "hi", [], 5⟩], 0⟩ : Session).messages
         = [] ∧
       (⟨"k", [⟨"user", "hello", [], 5⟩, ⟨"assistant", "hi", [], 5⟩], 0⟩ :
         Session).lastConsolidated = 0) ∧
     (goTrimSpace (goToLower "hello") = "/help" →
       (⟨"k", [⟨"user", "hello", [], 5⟩, ⟨"assistant", "hi", [], 5⟩], 0⟩ : Session)
         = ⟨"k", [], 0⟩) ∧
     (goTrimSpace (goToLower "hello") ≠ "/new" → goTrimSpace (goToLower "hello") ≠ "/help" →
       (⟨"k", [⟨"user", "hello", [], 5⟩, ⟨"assistant", "hi", [], 5⟩], 0⟩ :
         Session).lastConsolidated = (⟨"k", [], 0⟩ : Session).lastConsolidated ∧
       (⟨"k", [⟨"user", "hello", [], 5⟩, ⟨"assistant", "hi", [], 5⟩], 0⟩ :
         Session).messages.length = (⟨"k", [], 0⟩ : Session).messages.length + 2 ∧
       ∃ tools, (⟨"k", [⟨"user", "hello", [], 5⟩, ⟨"assistant", "hi", [], 5⟩], 0⟩ :
         Session).messages = (⟨"k", [], 0⟩ : Session).messages ++
           [⟨"user", "hello", [], 5⟩, ⟨"assistant", "hi", tools, 5⟩])) :=
  ⟨⟨by decide, by decide⟩, by decide,
    c1_process_message_invariant 20 50 [] c1chat ⟨"k", [], 0⟩ "hello" 5 "hi"
      ⟨"k", [⟨"user", "hello", [], 5⟩, ⟨"assistant", "hi", [], 5⟩], 0⟩
      ⟨by decide, by decide⟩ (by decide)⟩

/-- C4: when the backend call fails, returns an empty text reply, or
returns a reply that is not valid JSON after stripping markdown fences,
`Consolidate` changes nothing: the long-term memory document and the
history log are untouched and the session watermark is unchanged. The
Go function has no error return — every such path logs and returns, so
no error reaches the caller. -/
theorem c4_consolidation_failure_noop (chatResp : Except String ChatResponse)
    (parse : ParseFn) (st : ConsolState) (session : Session) (memWindow : Int)
    (h : (∃ e, chatResp = Except.error e) ∨
      (∀ resp, chatResp = Except.ok resp →
        goTrimSpace (extractFirstText resp.content) = "") ∨
      (∀ resp, chatResp = Except.ok resp →
        parse (stripFences (goTrimSpace (extractFirstText resp.content))) = none)) :
    (consolidate chatResp parse st session memWindow).state = st ∧
    (consolidate chatResp parse st session memWindow).session = session := by
  simp only [consolidate]
  split
  · exact ⟨rfl, rfl⟩
  · split
    · exact ⟨rfl, rfl⟩
    · split
      · exact ⟨rfl, rfl⟩
      · split
        · exact ⟨rfl, rfl⟩
        · rename_i x resp
          rcases h with ⟨e, he⟩ | hempty | hparse
          · simp at he
          · have ht := hempty resp rfl
            simp [ht]
          · have hp := hparse resp rfl
            by_cases hemp : goTrimSpace (extractFirstText resp.content) = ""
            · simp [hemp]
            · have hb : (goTrimSpace (extractFirstText resp.content) == "") = false := by
                simp [hemp]
              simp [hb, hp]

theorem c4_witness :
    (consolidate (Except.error "backend down") (fun _ => none) ⟨"memory", []⟩
      ⟨"k", List.replicate 60 ⟨"user", "x", [], 0⟩, 0⟩ 50).state = ⟨"memory", []⟩ ∧
    (consolidate (Except.error "backend down") (fun _ => none) ⟨"memory", []⟩
      ⟨"k", List.replicate 60 ⟨"user", "x", [], 0⟩, 0⟩ 50).session =
      ⟨"k", List.replicate 60 ⟨"user", "x", [], 0⟩, 0⟩ :=
  c4_consolidation_failure_noop (Except.error "backend down") (fun _ => none)
    ⟨"memory", []⟩ ⟨"k", List.replicate 60 ⟨"user", "x", [], 0⟩, 0⟩ 50
    (Or.inl ⟨"backend down", rfl⟩)

/-- C7: when the session's unconsolidated range is empty — no more
messages than the keep count (half the memory window), or the
consolidation boundary not past the watermark — `Consolidate` is a
complete no-op: no backend call is made, nothing is appended to the
history log, the memory document is not written, and the watermark is
unchanged. -/
theorem c7_consolidate_empty_range_noop (chatResp : Except String ChatResponse)
    (parse : ParseFn) (st : ConsolState) (session : Session) (memWindow : Int)
    (h : (session.messages.length : Int) ≤ memWindow.tdiv 2 ∨
      (session.messages.length : Int) - memWindow.tdiv 2 ≤ session.lastConsolidated) :
    consolidate chatResp parse st session memWindow = ⟨st, session, false⟩ := by
  simp only [consolidate]
  rcases h with h1 | h2
  · rw [if_pos h1]
  · by_cases h1 : (session.messages.length : Int) ≤ memWindow.tdiv 2
    · rw [if_pos h1]
    · rw [if_neg h1, if_pos h2]

theorem c7_witness :
    ((⟨"k", List.replicate 10 ⟨"user", "x", [], 0⟩, 0⟩ :
        Session).messages.length : Int) ≤ (50 : Int).tdiv 2 ∧
    consolidate (Except.ok ⟨[{ type := "text", text := "ignored" }], "end_turn"⟩)
      (fun _ => some ⟨"h", "m"⟩) ⟨"memory", []⟩
      ⟨"k", List.replicate 10 ⟨"user", "x", [], 0⟩, 0⟩ 50 =
      ⟨⟨"memory", []⟩, ⟨"k", List.replicate 10 ⟨"user", "x", [], 0⟩, 0⟩, false⟩ :=
  ⟨by decide,
    c7_consolidate_empty_range_noop
      (Except.ok ⟨[{ type := "text", text := "ignored" }], "end_turn"⟩)
      (fun _ => some ⟨"h", "m"⟩) ⟨"memory", []⟩
      ⟨"k", List.replicate 10 ⟨"user", "x", [], 0⟩, 0⟩ 50 (Or.inl (by decide))⟩

/-- C5 as stated fails: the sentinel comparison in `Service.tick` is
`strings.TrimSpace(result) == "HEARTBEAT_OK"`, which is
whitespace-insensitive but case-SENSITIVE. The reply "heartbeat_ok" —
equal to the sentinel up to case — is not suppressed: it is delivered
via the send channel. -/
theorem c5_counterexample :
    tick "do the task" "42" (Except.ok "heartbeat_ok") true = some ("42", "heartbeat_ok") ∧
    goToLower "heartbeat_ok" = goToLower heartbeatOK ∧
    "heartbeat_ok" ≠ "" :=
  ⟨by decide, by decide, by decide⟩

/-- C5 (amended): on a heartbeat tick whose instructions content is
non-empty, a reply is suppressed exactly when it is empty or its
whitespace-trimmed form equals the sentinel `HEARTBEAT_OK` under
case-SENSITIVE comparison; any other non-empty reply is delivered via
the send channel (given a configured send function and chat id). -/
theorem c5_sentinel_suppression (raw chatID result : String) (hasSend : Bool)
    (hcontent : filterHeartbeatContent raw ≠ "") :
    ((goTrimSpace result = heartbeatOK ∨ result = "") →
      tick raw chatID (Except.ok result) hasSend = none) ∧
    (goTrimSpace result ≠ heartbeatOK → result ≠ "" → hasSend = true → chatID ≠ "" →
      tick raw chatID (Except.ok result) hasSend = some (chatID, result)) := by
  have hc : (filterHeartbeatContent raw == "") = false := by simp [hcontent]
  constructor
  · intro hsup
    unfold tick
    simp only [hc, Bool.false_eq_true, if_neg, not_false_iff]
    rcases hsup with hs | hs
    · have : (goTrimSpace result == heartbeatOK) = true := by simp [hs]
      simp [this]
    · have : (result == "") = true := by simp [hs]
      simp [this]
  · intro hns hne hsend hcid
    unfold tick
    have h1 : (goTrimSpace result == heartbeatOK) = false := by simp [hns]
    have h2 : (result == "") = false := by simp [hne]
    have h3 : (chatID != "") = true := by simp [hcid]
    simp [hc, h1, h2, h3, hsend]

theorem c5_witness :
    filterHeartbeatContent "check the builds" ≠ "" ∧
    ((goTrimSpace " HEARTBEAT_OK " = heartbeatOK ∨ " HEARTBEAT_OK " = "") →
      tick "check the builds" "42" (Except.ok " HEARTBEAT_OK ") true = none) ∧
    (goTrimSpace " HEARTBEAT_OK " ≠ heartbeatOK → " HEARTBEAT_OK " ≠ "" →
      true = true → "42" ≠ "" →
      tick "check the builds" "42" (Except.ok " HEARTBEAT_OK ") true =
        some ("42", " HEARTBEAT_OK ")) :=
  ⟨by decide,
    c5_sentinel_suppression "check the builds" "42" " HEARTBEAT_OK " true (by decide)⟩

/-- C6: adding a cron job with a schedule expression the parser rejects
returns a descriptive error and changes nothing — no job in the
in-memory collection, nothing persisted; removing an unknown id returns
a "not found" error and leaves the collection unchanged. -/
theorem c6_add_remove_errors (parseSched : ParseSchedFn) (newID : String) (now : Timestamp)
    (st : CronState) (name schedule message chatID id : String) :
    (∀ e, parseSched schedule = Except.error e →
      (cronAdd parseSched newID now st name schedule message chatID).2 = st ∧
      (cronAdd parseSched newID now st name schedule message chatID).1 =
        Except.error ("invalid schedule \x22" ++ schedule ++ "\x22: " ++ e)) ∧
    (st.jobs.find? (fun p => p.1 == id) = none →
      (cronRemove st id).2 = st ∧
      (cronRemove st id).1 = Except.error ("job \x22" ++ id ++ "\x22 not found")) := by
  constructor
  · intro e he
    unfold cronAdd
    rw [he]
    exact ⟨rfl, rfl⟩
  · intro hfind
    unfold cronRemove
    rw [hfind]
    exact ⟨rfl, rfl⟩

theorem c6_witness :
    (cronAdd (fun _ => Except.error "bad expr") "101" 7 ⟨[], [], []⟩
      "daily" "whenever" "ping" "42").2 = ⟨[], [], []⟩ ∧
    (cronAdd (fun _ => Except.error "bad expr") "101" 7 ⟨[], [], []⟩
      "daily" "whenever" "ping" "42").1 =
      Except.error ("invalid schedule \x22" ++ "whenever" ++ "\x22: " ++ "bad expr") ∧
    (cronRemove ⟨[], [], []⟩ "nonexistent").2 = ⟨[], [], []⟩ ∧
    (cronRemove ⟨[], [], []⟩ "nonexistent").1 =
      Except.error ("job \x22" ++ "nonexistent" ++ "\x22 not found") :=
  ⟨((c6_add_remove_errors (fun _ => Except.error "bad expr") "101" 7 ⟨[], [], []⟩
      "daily" "whenever" "ping" "42" "nonexistent").1 "bad expr" rfl).1,
    ((c6_add_remove_errors (fun _ => Except.error "bad expr") "101" 7 ⟨[], [], []⟩
      "daily" "whenever" "ping" "42" "nonexistent").1 "bad expr" rfl).2,
    ((c6_add_remove_errors (fun _ => Except.error "bad expr") "101" 7 ⟨[], [], []⟩
      "daily" "whenever" "ping" "42" "nonexistent").2 (by decide)).1,
    ((c6_add_remove_errors (fun _ => Except.error "bad expr") "101" 7 ⟨[], [], []⟩
      "daily" "whenever" "ping" "42" "nonexistent").2 (by decide)).2⟩

theorem storeSet_find (fs : SessionStore) (path : String) (s : Session) :
    (storeSet fs path s).find? (fun p => p.1 == path) = some (path, s) := by
  unfold storeSet
  rw [List.find?_append]
  have h1 : (fs.filter (fun p => p.1 != path)).find? (fun p => p.1 == path) = none := by
    rw [List.find?_eq_none]
    intro a ha
    have hne := List.of_mem_filter ha
    simp only [bne_iff_ne, ne_eq] at hne
    simp [hne]
  rw [h1]
  simp

/-- C8: saving a session and loading it back by the same key reproduces
the stored value exactly — the same message sequence (roles, contents,
tools-used lists, timestamps) and the same consolidation watermark.
`Save` marshals every field, so `Get`'s unmarshal over a fresh struct
restores them all. -/
theorem c8_save_get_roundtrip (dir : String) (fs : SessionStore) (s : Session) :
    smGet dir (smSave dir fs s) s.key = s ∧
    (smGet dir (smSave dir fs s) s.key).messages = s.messages ∧
    (smGet dir (smSave dir fs s) s.key).lastConsolidated = s.lastConsolidated := by
  have h : smGet dir (smSave dir fs s) s.key = s := by
    unfold smGet smSave
    rw [storeSet_find]
  exact ⟨h, by rw [h], by rw [h]⟩

/-- C9: the session-key sanitization is not injective — "a:b" and "a_b"
map to the same file path — so saving under "a:b" and loading by "a_b"
returns the saved session (messages, watermark and even the stored key
"a:b") instead of the empty session that a fresh key yields. -/
theorem c9_sanitization_collision :
    sanitizeKey "a:b" = sanitizeKey "a_b" ∧ "a:b" ≠ "a_b" ∧
    smGet "sessions" (smSave "sessions" [] ⟨"a:b", [⟨"user", "hi", [], 3⟩], 1⟩) "a_b" =
      ⟨"a:b", [⟨"user", "hi", [], 3⟩], 1⟩ ∧
    smGet "sessions" [] "a_b" = ⟨"a_b", [], 0⟩ :=
  ⟨by decide, by decide, by decide, by decide⟩

end Miniclaw
